import Mathlib

/-!
# A verification development for the MiniPy interpreter

Shallow embedding of `MiniPy.py`: the `Lexer`, the `Token` and AST data
model, the recursive-descent `Parser`, and the tree-walking `Interpreter`,
together with theorems about their behaviour.

Modelling conventions:
* Python strings are `List Char`; the character-class predicates
  (`isspace`, `isalpha`, `isdigit`, `isalnum`) are modelled by Lean's
  ASCII-faithful `Char.isWhitespace`, `Char.isAlpha`, `Char.isDigit`,
  `Char.isAlphanum`.
* Python exceptions are modelled by `Except Err` / explicit error values;
  each `Err` constructor names the exception the source raises at the
  corresponding place.
* Python's unbounded `while` loops become fuel-indexed recursion; the
  fuel supplied by the top-level drivers is generous enough for every
  input, and the theorems below never rely on fuel exhaustion.
* Python numbers are `Int` (exact, like Python's int) and, for the
  results of `/`, rationals standing for Python floats; the float values
  appearing in the theorems below (such as 4.0 and 3.5) are exactly
  representable in binary64, where this modelling is exact.
-/

set_option autoImplicit false

attribute [local semireducible] Rat.mul Rat.inv Rat.add Rat.sub

/-- Failure values of the pipeline.  Each constructor corresponds to a
Python exception raised by the source: `invalidCharacter` is the lexer's
`Exception('Invalid character')`, `unexpectedToken` the parser's
`Exception('Invalid syntax')`, `indexError` is the `IndexError` raised by
`Lexer.__init__` on an empty string, `zeroDivision` is `ZeroDivisionError`,
`typeError` is the `TypeError` from arithmetic on `None`, `unhandled` is an
internal dispatch failure, and `fuelExhausted` is the artefact marker for
running out of fuel (never hit with the drivers' fuel). -/
inductive Err where
  | invalidCharacter
  | unexpectedToken
  | indexError
  | zeroDivision
  | typeError
  | unhandled
  | fuelExhausted
deriving DecidableEq, Repr

/-- Payload of a token: an integer for NUMBER, a string for the others,
absent for EOF (Python `None`). -/
inductive TokVal where
  | int (n : Nat)
  | str (s : String)
  | none
deriving DecidableEq, Repr

/-- The string payload, when present (`Token.value` where a string is expected). -/
def TokVal.getStr : TokVal → String
  | .str s => s
  | _ => ""

/-- The integer payload, when present (`Token.value` of a NUMBER token). -/
def TokVal.getNum : TokVal → Nat
  | .int n => n
  | _ => 0

/-- The `Token` class: a kind tag (the source stores it in `type`) and a payload. -/
structure Token where
  type : String
  value : TokVal
deriving DecidableEq, Repr

/-- The EOF token `Token('EOF', None)`. -/
def eofTok : Token := ⟨"EOF", .none⟩

/-- The `Lexer` class: the source text and the cursor position.  The
source's `current_char` field is always `text[pos]` when `pos` is in
range and `None` otherwise, so it is derived (`Lexer.curr`) rather than
stored. -/
structure Lexer where
  text : List Char
  pos : Nat
deriving DecidableEq, Repr

namespace Lexer

/-- `Lexer.__init__`: sets `pos = 0` and reads `text[0]`, which raises
`IndexError` when the text is empty. -/
def init (text : List Char) : Option Lexer :=
  match text with
  | [] => Option.none
  | _ => some ⟨text, 0⟩

/-- The current character (`current_char`): `text[pos]`, or `None` past the end. -/
def curr (l : Lexer) : Option Char :=
  (l.text.drop l.pos).head?

/-- `advance`: move the cursor one character. -/
def advance (l : Lexer) : Lexer :=
  ⟨l.text, l.pos + 1⟩

/-- `skip_whitespace`: advance while the current character is whitespace. -/
def skip_whitespace (l : Lexer) : Lexer :=
  ⟨l.text, l.pos + ((l.text.drop l.pos).takeWhile Char.isWhitespace).length⟩

/-- Decimal value of a digit run (Python `int(result)`). -/
def digitsToNat (ds : List Char) : Nat :=
  ds.foldl (fun acc c => acc * 10 + (c.toNat - 48)) 0

/-- The lexer's `variable` method: consume a maximal alphanumeric run and
produce a VARIABLE token carrying it. -/
def variableToken (l : Lexer) : Token × Lexer :=
  (⟨"VARIABLE", .str (String.mk ((l.text.drop l.pos).takeWhile Char.isAlphanum))⟩,
   ⟨l.text, l.pos + ((l.text.drop l.pos).takeWhile Char.isAlphanum).length⟩)

/-- The lexer's `number` method: consume a maximal digit run and produce a
NUMBER token carrying its integer value. -/
def numberToken (l : Lexer) : Token × Lexer :=
  (⟨"NUMBER", .int (digitsToNat ((l.text.drop l.pos).takeWhile Char.isDigit))⟩,
   ⟨l.text, l.pos + ((l.text.drop l.pos).takeWhile Char.isDigit).length⟩)

/-- The body of `get_next_token`'s dispatch once whitespace has been
skipped and the current character `c` is known.  The branch order mirrors
the source exactly; in particular the `print` prefix test comes after the
`isalpha` test, which makes it unreachable. -/
def gntChar (c : Char) (l : Lexer) : Except Err (Token × Lexer) :=
  if c.isAlpha then .ok (variableToken l)
  else if c.isDigit then .ok (numberToken l)
  else if c == '+' then .ok (⟨"PLUS", .str "+"⟩, advance l)
  else if c == '-' then .ok (⟨"MINUS", .str "-"⟩, advance l)
  else if c == '*' then .ok (⟨"MUL", .str "*"⟩, advance l)
  else if c == '/' then .ok (⟨"DIV", .str "/"⟩, advance l)
  else if c == '=' then .ok (⟨"EQ", .str "="⟩, advance l)
  else if c == ';' then .ok (⟨"SEMICOLON", .str ";"⟩, advance l)
  else if c == '(' then .ok (⟨"LPAREN", .str "("⟩, advance l)
  else if c == ')' then .ok (⟨"RPAREN", .str ")"⟩, advance l)
  else if c == 'p' && (l.text.drop l.pos).take 5 == "print".toList then
    .ok (⟨"PRINT", .str "print"⟩, ⟨l.text, l.pos + 5⟩)
  else .error .invalidCharacter

/-- `get_next_token`: skip whitespace, then return EOF at end of input or
dispatch on the current character.  (The source's `while` loop re-tests
`current_char` after `skip_whitespace`; since one `skip_whitespace` pass
consumes all contiguous whitespace, the loop runs the dispatch at most
once, which is what this definition states directly.) -/
def get_next_token (l0 : Lexer) : Except Err (Token × Lexer) :=
  match curr (skip_whitespace l0) with
  | Option.none => .ok (eofTok, skip_whitespace l0)
  | some c => gntChar c (skip_whitespace l0)

end Lexer

/-- Repeatedly call `get_next_token`, collecting tokens up to and
including the first EOF. -/
def lexAll : Nat → Lexer → Except Err (List Token)
  | 0, _ => .error .fuelExhausted
  | fuel + 1, l =>
    match l.get_next_token with
    | .error e => .error e
    | .ok (t, l') =>
      if t.type == "EOF" then .ok [t]
      else
        match lexAll fuel l' with
        | .error e => .error e
        | .ok ts => .ok (t :: ts)

/-- Construct a lexer on a string and read the whole token stream, the
way the driver does (`Lexer(text)` then repeated `get_next_token`). -/
def lexString (s : String) : Except Err (List Token) :=
  match Lexer.init s.toList with
  | Option.none => .error .indexError
  | some l => lexAll (s.toList.length + 1) l

/-- Characters the lexer can consume without raising
`Invalid character`: whitespace, letters, digits and the eight
single-character operators. -/
def recognizedChar (c : Char) : Bool :=
  c.isWhitespace || c.isAlpha || c.isDigit ||
    (c == '+' || c == '-' || c == '*' || c == '/' ||
     c == '=' || c == ';' || c == '(' || c == ')')

/-- The AST node classes: `Num`, `Var`, `BinOp`, `Assign`, `Print`.
`BinOp` stores the whole operator token, exactly as the source's parser
does (`BinOp(node, token, ...)`); the interpreter later inspects
`op.type`.  `Assign` stores the variable's name string (`var.value`). -/
inductive AST where
  | num (value : Nat)
  | var (name : String)
  | binOp (left : AST) (op : Token) (right : AST)
  | assign (var : String) (value : AST)
  | print (expr : AST)
deriving DecidableEq, Repr

/-- The `Parser` class: the wrapped lexer and the one-token lookahead
(`current_token`). -/
structure Parser where
  lexer : Lexer
  current : Token
deriving DecidableEq, Repr

namespace Parser

/-- `Parser.__init__`: prime `current_token` with the first token. -/
def init (lx : Lexer) : Except Err Parser :=
  match lx.get_next_token with
  | .error e => .error e
  | .ok (t, lx') => .ok ⟨lx', t⟩

/-- `eat(token_type)`: if the current token has the expected kind, advance
to the next token; otherwise raise `Invalid syntax`. -/
def eat (p : Parser) (ty : String) : Except Err Parser :=
  if p.current.type == ty then
    match p.lexer.get_next_token with
    | .error e => .error e
    | .ok (t, lx') => .ok ⟨lx', t⟩
  else .error .unexpectedToken

end Parser

/-- Selector for the mutually recursive grammar procedures `factor`,
`term` and `expr`; the two loop forms carry the left operand accumulated
so far by the corresponding `while` loop in the source. -/
inductive Rule where
  | factor
  | term
  | termLoop (left : AST)
  | expr
  | exprLoop (left : AST)

/-- The recursive-descent procedures `factor`, `term` and `expr` of the
source, as one fuel-indexed function.  `factor` parses a NUMBER, a
VARIABLE or a parenthesised `expr`; `term` parses `factor (MUL|DIV
factor)*` left-associatively; `expr` parses `term (PLUS|MINUS term)*`
left-associatively.  Any other shape raises `Invalid syntax`. -/
def parseF : Nat → Rule → Parser → Except Err (AST × Parser)
  | 0, _, _ => .error .fuelExhausted
  | fuel + 1, .factor, p =>
    let token := p.current
    if token.type == "NUMBER" then do
      let p1 ← p.eat "NUMBER"
      return (.num token.value.getNum, p1)
    else if token.type == "VARIABLE" then do
      let p1 ← p.eat "VARIABLE"
      return (.var token.value.getStr, p1)
    else if token.type == "LPAREN" then do
      let p1 ← p.eat "LPAREN"
      let (node, p2) ← parseF fuel .expr p1
      let p3 ← p2.eat "RPAREN"
      return (node, p3)
    else .error .unexpectedToken
  | fuel + 1, .term, p => do
    let (node, p1) ← parseF fuel .factor p
    parseF fuel (.termLoop node) p1
  | fuel + 1, .termLoop left, p =>
    if p.current.type == "MUL" || p.current.type == "DIV" then do
      let token := p.current
      let p1 ← p.eat token.type
      let (rhs, p2) ← parseF fuel .factor p1
      parseF fuel (.termLoop (.binOp left token rhs)) p2
    else .ok (left, p)
  | fuel + 1, .expr, p => do
    let (node, p1) ← parseF fuel .term p
    parseF fuel (.exprLoop node) p1
  | fuel + 1, .exprLoop left, p =>
    if p.current.type == "PLUS" || p.current.type == "MINUS" then do
      let token := p.current
      let p1 ← p.eat token.type
      let (rhs, p2) ← parseF fuel .term p1
      parseF fuel (.exprLoop (.binOp left token rhs)) p2
    else .ok (left, p)

/-- The parser's `statement` method: `VARIABLE "=" expr ";"` builds an
`Assign`, `PRINT expr ";"` builds a `Print`; anything else raises
`Invalid syntax`.  Note that `eat('SEMICOLON')` is unconditional in both
branches. -/
def statementP (fuel : Nat) (p : Parser) : Except Err (AST × Parser) :=
  if p.current.type == "VARIABLE" then do
    let var := p.current
    let p1 ← p.eat "VARIABLE"
    let p2 ← p1.eat "EQ"
    let (value, p3) ← parseF fuel .expr p2
    let p4 ← p3.eat "SEMICOLON"
    return (.assign var.value.getStr value, p4)
  else if p.current.type == "PRINT" then do
    let p1 ← p.eat "PRINT"
    let (e, p2) ← parseF fuel .expr p1
    let p3 ← p2.eat "SEMICOLON"
    return (.print e, p3)
  else .error .unexpectedToken

/-- The parser's `parse` method: collect statements until the current
token is EOF.  A failure inside any statement aborts the whole parse with
that error; no partial list is returned. -/
def parseLoop : Nat → Parser → Except Err (List AST)
  | 0, _ => .error .fuelExhausted
  | fuel + 1, p =>
    if p.current.type == "EOF" then .ok []
    else do
      let (s, p') ← statementP fuel p
      let rest ← parseLoop fuel p'
      return (s :: rest)

/-- The whole front end on one line of input: construct a `Lexer` (which
raises `IndexError` on an empty string), a `Parser`, and run `parse`.
The fuel is generous: parsing consumes at least one token for every
constant number of recursive steps, and a line of length `n` has at most
`n + 1` tokens. -/
def parseProgram (s : String) : Except Err (List AST) :=
  match Lexer.init s.toList with
  | Option.none => .error .indexError
  | some lx =>
    match Parser.init lx with
    | .error e => .error e
    | .ok p => parseLoop (8 * (s.toList.length + 4)) p

/-- Runtime values flowing through the interpreter: Python ints, Python
floats (modelled as exact rationals; exact for the binary64-representable
values the theorems use), and Python `None` (what `visit_Assign` and
`visit_Print` return). -/
inductive Value where
  | intV (n : Int)
  | floatV (q : ℚ)
  | noneV
deriving DecidableEq, Repr

/-- Whether the value is numeric (an int or a float). -/
def Value.isNum : Value → Bool
  | .noneV => false
  | _ => true

/-- The rational magnitude of a numeric value. -/
def Value.toRat : Value → ℚ
  | .intV n => (n : ℚ)
  | .floatV q => q
  | .noneV => 0

/-- Rendering of a non-negative Python float by `str`: an integral value
prints with a trailing `.0`, otherwise the finite decimal expansion is
printed.  Scope of the model: Python's `str` prints the shortest decimal
that round-trips through binary64, switching to scientific notation at
magnitudes of 1e16 and above.  For a float whose exact value IS a short
decimal well below 1e16 — every float the theorems below touch — the
shortest round-trip decimal and the exact finite expansion coincide, so
this function agrees with the program there; outside that range it does
not, and no theorem uses it outside that range. -/
def renderPosFloat (q : ℚ) : String :=
  if q.den = 1 then toString q.num ++ ".0"
  else
    match (List.range 60).find? (fun k => (q * (10 : ℚ) ^ (k + 1)).den = 1) with
    | some k =>
      let digits := toString (q * (10 : ℚ) ^ (k + 1)).num.natAbs
      let padded := String.mk (List.replicate (k + 2 - digits.length) '0') ++ digits
      let n := padded.length
      String.mk (padded.toList.take (n - (k + 1))) ++ "." ++
        String.mk (padded.toList.drop (n - (k + 1)))
    | Option.none => "inf"

/-- Rendering of a Python float by `str`, with the sign split off. -/
def renderFloat (q : ℚ) : String :=
  if q < 0 then "-" ++ renderPosFloat (-q) else renderPosFloat q

/-- What `print(result)` writes: `str` of the value.  Ints render in
decimal, floats per `renderFloat`, and `None` renders as the text
`None`. -/
def render : Value → String
  | .intV n => toString n
  | .floatV q => renderFloat q
  | .noneV => "None"

/-- The interpreter's variable environment (`self.variables`), a mapping
from names to values with insert-or-overwrite update. -/
abbrev Env := List (String × Value)

/-- Python `dict.get(name, default)` lookup, without the default. -/
def envGet (env : Env) (name : String) : Option Value :=
  match env with
  | [] => Option.none
  | (k, v) :: rest => if k = name then some v else envGet rest name

/-- Python `dict[name] = value`: overwrite the existing binding or append
a new one. -/
def envSet (env : Env) (name : String) (v : Value) : Env :=
  match env with
  | [] => [(name, v)]
  | (k, w) :: rest => if k = name then (name, v) :: rest else (k, w) :: envSet rest name v

/-- Python `+` on interpreter values: int + int stays int, a float operand
makes the result float, and `None` operands raise `TypeError`. -/
def addV : Value → Value → Except Err Value
  | .intV a, .intV b => .ok (.intV (a + b))
  | a, b => if a.isNum && b.isNum then .ok (.floatV (a.toRat + b.toRat)) else .error .typeError

/-- Python `-` on interpreter values. -/
def subV : Value → Value → Except Err Value
  | .intV a, .intV b => .ok (.intV (a - b))
  | a, b => if a.isNum && b.isNum then .ok (.floatV (a.toRat - b.toRat)) else .error .typeError

/-- Python `*` on interpreter values. -/
def mulV : Value → Value → Except Err Value
  | .intV a, .intV b => .ok (.intV (a * b))
  | a, b => if a.isNum && b.isNum then .ok (.floatV (a.toRat * b.toRat)) else .error .typeError

/-- Python `/` on interpreter values: true division, always producing a
float; a zero right operand raises `ZeroDivisionError`, a `None` operand
raises `TypeError`.  The quotient is modelled as the exact rational,
which matches the binary64 result only while the quotient needs at most
53 significant bits (true of every quotient in the theorems below); the
zero test and the error cases are exact unconditionally. -/
def divV (a b : Value) : Except Err Value :=
  if !(a.isNum && b.isNum) then .error .typeError
  else if b.toRat = 0 then .error .zeroDivision
  else .ok (.floatV (a.toRat / b.toRat))

/-- Modelled from the spec: the interpreter's `error` method.  The source
references `self.error` at lines 223 and 234 of `MiniPy.py` but the
`Interpreter` class nowhere defines it — only its callers are present.
Per the spec (sections 4.3 and 7), an unrecognised dispatch is the fatal
internal error `UnhandledNodeKind`, surfaced as a failure value. -/
def interpreterError : Err := .unhandled

/-- The body of `visit_BinOp` after both operands are evaluated: compare
`op.type` against PLUS, MINUS, MUL, DIV in order and apply the Python
operator; an unrecognised kind falls through to the interpreter's error
(see `interpreterError`). -/
def applyOp (ty : String) (a b : Value) : Except Err Value :=
  if ty == "PLUS" then addV a b
  else if ty == "MINUS" then subV a b
  else if ty == "MUL" then mulV a b
  else if ty == "DIV" then divV a b
  else .error interpreterError

deriving instance DecidableEq for Except

/-- Result of visiting one node: the Python return value (or the raised
exception), the environment afterwards, and the lines printed along the
way.  Environment and output survive an exception, as they do in
Python. -/
structure VRes where
  res : Except Err Value
  env : Env
  out : List String
deriving DecidableEq, Repr

/-- The interpreter's `visit` dispatch together with the five
`visit_<Node>` methods.  Dispatch resolves `visit_<TypeName>` by node
class; the `getattr` default references the modelled `interpreterError`
(see there), and every node variant has a handler, so dispatch always
reaches the matching method:
* `visit_Num` returns the literal value;
* `visit_Var` returns `self.variables.get(name, 0)`;
* `visit_BinOp` evaluates the left then the right operand and applies the
  operator (`applyOp`);
* `visit_Assign` evaluates the value and stores it in `self.variables`;
* `visit_Print` evaluates the expression and prints its rendering.
`visit_Assign` and `visit_Print` return Python `None` (`Value.noneV`). -/
def visit (env : Env) : AST → VRes
  | .num n => ⟨.ok (.intV n), env, []⟩
  | .var name =>
    match envGet env name with
    | some v => ⟨.ok v, env, []⟩
    | Option.none => ⟨.ok (.intV 0), env, []⟩
  | .binOp l op r =>
    match visit env l with
    | ⟨.error e, env1, out1⟩ => ⟨.error e, env1, out1⟩
    | ⟨.ok vl, env1, out1⟩ =>
      match visit env1 r with
      | ⟨.error e, env2, out2⟩ => ⟨.error e, env2, out1 ++ out2⟩
      | ⟨.ok vr, env2, out2⟩ => ⟨applyOp op.type vl vr, env2, out1 ++ out2⟩
  | .assign name value =>
    match visit env value with
    | ⟨.error e, env1, out1⟩ => ⟨.error e, env1, out1⟩
    | ⟨.ok v, env1, out1⟩ => ⟨.ok .noneV, envSet env1 name v, out1⟩
  | .print e =>
    match visit env e with
    | ⟨.error err, env1, out1⟩ => ⟨.error err, env1, out1⟩
    | ⟨.ok v, env1, out1⟩ => ⟨.ok .noneV, env1, out1 ++ [render v]⟩

/-- Result of interpreting a line: the raised exception if any, the final
environment, and everything printed. -/
structure IRes where
  err : Option Err
  env : Env
  out : List String
deriving DecidableEq, Repr

/-- The loop in `interpret`: visit each parsed statement in order,
stopping at the first exception (which leaves the environment and output
as they were at that point). -/
def runStmts : Env → List String → List AST → IRes
  | env, out, [] => ⟨Option.none, env, out⟩
  | env, out, s :: rest =>
    match visit env s with
    | ⟨.error e, env1, out1⟩ => ⟨some e, env1, out ++ out1⟩
    | ⟨.ok _, env1, out1⟩ => runStmts env1 (out ++ out1) rest

/-- The interpreter's `interpret` method on one line of input, starting
from a given environment: run the full parse first (line 238 of the
source), and only if it succeeds visit the statements in order.  A parse
failure therefore evaluates nothing. -/
def interpret (env : Env) (text : String) : IRes :=
  match parseProgram text with
  | .error e => ⟨some e, env, []⟩
  | .ok stmts => runStmts env [] stmts

/-- Expression trees containing no `Assign` node (every AST the source's
parser builds for an expression position has this shape). -/
def assignFree : AST → Bool
  | .num _ => true
  | .var _ => true
  | .binOp l _ r => assignFree l && assignFree r
  | .assign _ _ => false
  | .print e => assignFree e

/-- The PLUS token as the lexer builds it. -/
def plusTok : Token := ⟨"PLUS", .str "+"⟩

/-- The MINUS token as the lexer builds it. -/
def minusTok : Token := ⟨"MINUS", .str "-"⟩

/-- The MUL token as the lexer builds it. -/
def mulTok : Token := ⟨"MUL", .str "*"⟩

/-- The DIV token as the lexer builds it. -/
def divTok : Token := ⟨"DIV", .str "/"⟩

section ListHelpers

variable {α : Type} (p : α → Bool)

theorem drop_length_takeWhile (xs : List α) :
    xs.drop (xs.takeWhile p).length = xs.dropWhile p := by
  induction xs with
  | nil => rfl
  | cons x xs ih =>
    by_cases h : p x
    · simp [List.takeWhile_cons, List.dropWhile_cons, h, ih]
    · simp [List.takeWhile_cons, List.dropWhile_cons, h]

theorem head?_dropWhile_not (xs : List α) {c : α}
    (h : (xs.dropWhile p).head? = some c) : p c = false := by
  induction xs with
  | nil => simp at h
  | cons x xs ih =>
    rw [List.dropWhile_cons] at h
    by_cases hx : p x
    · simp [hx] at h
      exact ih h
    · simp [hx] at h
      subst h
      simpa using hx

theorem head?_mem {xs : List α} {c : α} (h : xs.head? = some c) : c ∈ xs := by
  cases xs with
  | nil => simp at h
  | cons x xs => simp at h; simp [h]

end ListHelpers

/-- C1: the claim states that an input beginning with the keyword text
`print` (resp. `let`) yields a PRINT (resp. LET) token.  The code does
not do this: `get_next_token`'s `isalpha` branch precedes the `print`
prefix test (which is therefore unreachable dead code), and no LET branch
exists at all, so both words are lexed as VARIABLE tokens — and the
statement forms documented in the program's own help text then fail to
parse. -/
theorem claim_C1_keywords_lexed_as_variables :
    Lexer.get_next_token ⟨"print 1;".toList, 0⟩ =
      .ok (⟨"VARIABLE", .str "print"⟩, ⟨"print 1;".toList, 5⟩) ∧
    Lexer.get_next_token ⟨"let x = 5;".toList, 0⟩ =
      .ok (⟨"VARIABLE", .str "let"⟩, ⟨"let x = 5;".toList, 3⟩) ∧
    parseProgram "print 1;" = .error .unexpectedToken ∧
    parseProgram "let x = 5;" = .error .unexpectedToken := by
  refine ⟨?_, ?_, ?_, ?_⟩ <;> rfl

/-- C4 counterexample: the claim says the trailing semicolon is optional,
but an assignment without it is rejected by the parser. -/
theorem claim_C4_counterexample :
    parseProgram "x = 5" = .error .unexpectedToken := by
  rfl

theorem except_bind_ok {ε α β : Type} (a : α) (f : α → Except ε β) :
    (Bind.bind (Except.ok a) f : Except ε β) = f a := rfl

theorem except_bind_error {ε α β : Type} (e : ε) (f : α → Except ε β) :
    (Bind.bind (Except.error e) f : Except ε β) = Except.error e := rfl

theorem eat_fail (p : Parser) (ty : String) (h : p.current.type ≠ ty) :
    p.eat ty = .error .unexpectedToken := by
  simp [Parser.eat, beq_eq_false_iff_ne.mpr h]

/-- C4 amended: the trailing semicolon is mandatory, not optional, in
both statement forms.  For every well-formed body — any parser state
whose leading tokens and body expression parse, in either the
assignment (`VARIABLE "=" expr`) branch or the `PRINT expr` branch of
`statement` — the statement succeeds exactly when a SEMICOLON token
follows the expression and is consumed; when the token after the
expression is anything else, the unconditional `eat('SEMICOLON')` fails
with the parser's `Invalid syntax` error. -/
theorem claim_C4_semicolon_required :
    (∀ (fuel : Nat) (p p1 p2 p3 p4 : Parser) (v : AST),
      p.current.type = "VARIABLE" →
      p.eat "VARIABLE" = .ok p1 → p1.eat "EQ" = .ok p2 →
      parseF fuel .expr p2 = .ok (v, p3) →
      p3.eat "SEMICOLON" = .ok p4 →
      statementP fuel p = .ok (.assign p.current.value.getStr v, p4)) ∧
    (∀ (fuel : Nat) (p p1 p2 p3 : Parser) (v : AST),
      p.current.type = "VARIABLE" →
      p.eat "VARIABLE" = .ok p1 → p1.eat "EQ" = .ok p2 →
      parseF fuel .expr p2 = .ok (v, p3) →
      p3.current.type ≠ "SEMICOLON" →
      statementP fuel p = .error .unexpectedToken) ∧
    (∀ (fuel : Nat) (p p1 p2 p3 : Parser) (e : AST),
      p.current.type = "PRINT" →
      p.eat "PRINT" = .ok p1 →
      parseF fuel .expr p1 = .ok (e, p2) →
      p2.eat "SEMICOLON" = .ok p3 →
      statementP fuel p = .ok (.print e, p3)) ∧
    (∀ (fuel : Nat) (p p1 p2 : Parser) (e : AST),
      p.current.type = "PRINT" →
      p.eat "PRINT" = .ok p1 →
      parseF fuel .expr p1 = .ok (e, p2) →
      p2.current.type ≠ "SEMICOLON" →
      statementP fuel p = .error .unexpectedToken) := by
  refine ⟨?_, ?_, ?_, ?_⟩
  · intro fuel p p1 p2 p3 p4 v hvar h1 h2 h3 h4
    simp [statementP, hvar, h1, h2, h3, h4, except_bind_ok]
  · intro fuel p p1 p2 p3 v hvar h1 h2 h3 hne
    simp [statementP, hvar, h1, h2, h3, except_bind_ok, except_bind_error,
      eat_fail p3 "SEMICOLON" hne]
  · intro fuel p p1 p2 p3 e hp h1 h3 h4
    simp [statementP, hp, h1, h3, h4, except_bind_ok]
  · intro fuel p p1 p2 e hp h1 h3 hne
    simp [statementP, hp, h1, h3, except_bind_ok, except_bind_error,
      eat_fail p2 "SEMICOLON" hne]

/-- C4 witness: the four general parts instantiated on concrete parser
states — an assignment body and a print body each parse when a
SEMICOLON follows the expression, and each fails with `Invalid syntax`
when the input ends without one. -/
theorem claim_C4_witness :
    statementP 8 ⟨⟨"x = 5;".toList, 1⟩, ⟨"VARIABLE", .str "x"⟩⟩ =
      .ok (.assign "x" (.num 5), ⟨⟨"x = 5;".toList, 6⟩, ⟨"EOF", .none⟩⟩) ∧
    statementP 8 ⟨⟨"x = 5".toList, 1⟩, ⟨"VARIABLE", .str "x"⟩⟩ = .error .unexpectedToken ∧
    statementP 8 ⟨⟨" 5;".toList, 0⟩, ⟨"PRINT", .str "print"⟩⟩ =
      .ok (.print (.num 5), ⟨⟨" 5;".toList, 3⟩, ⟨"EOF", .none⟩⟩) ∧
    statementP 8 ⟨⟨" 5".toList, 0⟩, ⟨"PRINT", .str "print"⟩⟩ = .error .unexpectedToken :=
  ⟨claim_C4_semicolon_required.1 8
      ⟨⟨"x = 5;".toList, 1⟩, ⟨"VARIABLE", .str "x"⟩⟩
      ⟨⟨"x = 5;".toList, 3⟩, ⟨"EQ", .str "="⟩⟩
      ⟨⟨"x = 5;".toList, 5⟩, ⟨"NUMBER", .int 5⟩⟩
      ⟨⟨"x = 5;".toList, 6⟩, ⟨"SEMICOLON", .str ";"⟩⟩
      ⟨⟨"x = 5;".toList, 6⟩, ⟨"EOF", .none⟩⟩
      (.num 5) rfl rfl rfl rfl rfl,
   claim_C4_semicolon_required.2.1 8
      ⟨⟨"x = 5".toList, 1⟩, ⟨"VARIABLE", .str "x"⟩⟩
      ⟨⟨"x = 5".toList, 3⟩, ⟨"EQ", .str "="⟩⟩
      ⟨⟨"x = 5".toList, 5⟩, ⟨"NUMBER", .int 5⟩⟩
      ⟨⟨"x = 5".toList, 5⟩, ⟨"EOF", .none⟩⟩
      (.num 5) rfl rfl rfl rfl (by decide),
   claim_C4_semicolon_required.2.2.1 8
      ⟨⟨" 5;".toList, 0⟩, ⟨"PRINT", .str "print"⟩⟩
      ⟨⟨" 5;".toList, 2⟩, ⟨"NUMBER", .int 5⟩⟩
      ⟨⟨" 5;".toList, 3⟩, ⟨"SEMICOLON", .str ";"⟩⟩
      ⟨⟨" 5;".toList, 3⟩, ⟨"EOF", .none⟩⟩
      (.num 5) rfl rfl rfl rfl,
   claim_C4_semicolon_required.2.2.2 8
      ⟨⟨" 5".toList, 0⟩, ⟨"PRINT", .str "print"⟩⟩
      ⟨⟨" 5".toList, 2⟩, ⟨"NUMBER", .int 5⟩⟩
      ⟨⟨" 5".toList, 2⟩, ⟨"EOF", .none⟩⟩
      (.num 5) rfl rfl rfl (by decide)⟩

/-- C10: parsing is deterministic — the embedded pipeline is a pure
function of the input line (the source constructs a fresh `Lexer` and
`Parser` per run and reads no other state), so two runs on the same
string produce structurally identical statement lists. -/
theorem claim_C10_deterministic (text : String) (r1 r2 : List AST)
    (h1 : parseProgram text = .ok r1) (h2 : parseProgram text = .ok r2) :
    r1 = r2 := by
  rw [h1] at h2
  exact Except.ok.inj h2

/-- C10 witness: two parses of `x = 1;` agree. -/
theorem claim_C10_witness :
    parseProgram "x = 1;" = .ok [.assign "x" (.num 1)] ∧
    ([AST.assign "x" (.num 1)] : List AST) = [.assign "x" (.num 1)] :=
  ⟨rfl, claim_C10_deterministic "x = 1;" _ _ rfl rfl⟩

/-- C8: if the line fails to parse, `interpret` propagates the error
without evaluating anything: no statement list is produced, nothing is
printed, and the environment is returned exactly as it was. -/
theorem claim_C8_parse_error_preserves_env (text : String) (env : Env) (e : Err)
    (h : parseProgram text = .error e) :
    interpret env text = ⟨some e, env, []⟩ := by
  simp [interpret, h]

/-- C8 witness: a line whose second statement is malformed parses to an
error, and interpreting it from a non-empty environment changes
nothing — not even the valid first statement runs. -/
theorem claim_C8_witness :
    parseProgram "x = 1; y = ;" = .error .unexpectedToken ∧
    interpret [("a", .intV 7)] "x = 1; y = ;" =
      ⟨some .unexpectedToken, [("a", .intV 7)], []⟩ :=
  ⟨rfl, claim_C8_parse_error_preserves_env "x = 1; y = ;" [("a", .intV 7)] .unexpectedToken rfl⟩

/-- C6: under the code's lenient policy (`self.variables.get(name, 0)`),
visiting an unbound variable returns the int 0, mutating nothing and
raising nothing. -/
theorem claim_C6_unbound_var_yields_zero (env : Env) (name : String)
    (h : envGet env name = Option.none) :
    visit env (.var name) = ⟨.ok (.intV 0), env, []⟩ := by
  simp [visit, h]

/-- C6 witness: reading `y` in an environment that only binds `x`. -/
theorem claim_C6_witness :
    visit [("x", .intV 3)] (.var "y") = ⟨.ok (.intV 0), [("x", .intV 3)], []⟩ :=
  claim_C6_unbound_var_yields_zero [("x", .intV 3)] "y" rfl

/-- C7: the parser realises standard precedence and left-associativity,
and parentheses override: `2 + 3 * 4` parses with the multiplication
nested under the addition and evaluates to 14, `(2 + 3) * 4` parses with
the addition nested under the multiplication and evaluates to 20, and
`10 - 3 - 2` associates to the left, evaluating to 5. -/
theorem claim_C7_precedence :
    parseProgram "x = 2 + 3 * 4;" =
      .ok [.assign "x" (.binOp (.num 2) plusTok (.binOp (.num 3) mulTok (.num 4)))] ∧
    interpret [] "x = 2 + 3 * 4;" = ⟨Option.none, [("x", .intV 14)], []⟩ ∧
    parseProgram "x = (2 + 3) * 4;" =
      .ok [.assign "x" (.binOp (.binOp (.num 2) plusTok (.num 3)) mulTok (.num 4))] ∧
    interpret [] "x = (2 + 3) * 4;" = ⟨Option.none, [("x", .intV 20)], []⟩ ∧
    parseProgram "x = 10 - 3 - 2;" =
      .ok [.assign "x" (.binOp (.binOp (.num 10) minusTok (.num 3)) minusTok (.num 2))] ∧
    interpret [] "x = 10 - 3 - 2;" = ⟨Option.none, [("x", .intV 5)], []⟩ := by
  refine ⟨?_, ?_, ?_, ?_, ?_, ?_⟩ <;> rfl

/-- C5: evaluating `BinOp(l, /, r)` when both operands evaluate to
numeric values and the right one is zero fails with `ZeroDivisionError`,
whatever the left value is; no value is produced. -/
theorem claim_C5_division_by_zero (env : Env) (l r : AST) (op : Token) (vl vr : Value)
    (hop : op.type = "DIV")
    (hl : (visit env l).res = .ok vl) (hvl : vl.isNum = true)
    (hr : (visit (visit env l).env r).res = .ok vr) (hvr : vr.isNum = true)
    (hz : vr.toRat = 0) :
    (visit env (.binOp l op r)).res = .error .zeroDivision := by
  rcases h1 : visit env l with ⟨res1, env1, out1⟩
  rw [h1] at hl hr
  simp only at hl hr
  subst hl
  rcases h2 : visit env1 r with ⟨res2, env2, out2⟩
  rw [h2] at hr
  simp only at hr
  subst hr
  simp only [visit, h1, h2, hop]
  simp [applyOp, divV, hvl, hvr, hz]

/-- C5 witness: `5 / 0` (and the claim also covers `0 / 0`). -/
theorem claim_C5_witness :
    (visit [] (.binOp (.num 5) divTok (.num 0))).res = .error .zeroDivision :=
  claim_C5_division_by_zero [] (.num 5) (.num 0) divTok (.intV 5) (.intV 0)
    rfl rfl rfl rfl rfl (by decide)

/-- C3 counterexample: the claim says `print 8 / 2;` outputs `4`.  The
code renders the division result — a Python float — as `4.0`, and the
source line itself does not even parse, because `print` is lexed as a
VARIABLE token (see C1). -/
theorem claim_C3_counterexample :
    (visit [] (.print (.binOp (.num 8) divTok (.num 2)))).out = ["4.0"] ∧
    (visit [] (.print (.binOp (.num 8) divTok (.num 2)))).out ≠ ["4"] ∧
    parseProgram "print 8 / 2;" = .error .unexpectedToken := by
  refine ⟨by decide, by decide, rfl⟩

/-- C3 amended: `/` always produces a float, so a `Print` of a division
result always includes a decimal point.  An integer-valued quotient
renders with a trailing `.0`, never as a bare integer — printing 8 / 2
outputs `4.0` and 6 / 3 outputs `2.0` — while a non-integral quotient
renders in decimal form: 7 / 2 outputs `3.5` and 1 / 2 outputs `0.5`.
The instances are deliberately confined to quotients that binary64
represents exactly and whose shortest round-trip decimal is the exact
expansion (small dyadic values well below 1e16), the range on which the
rational model of Python floats coincides with the program; Python's
`str` would use scientific notation or rounded digits outside it.  The
surface form `print a / b;` itself never parses, `print` not being
lexed as a keyword. -/
theorem claim_C3_quotient_rendering :
    (visit [] (.print (.binOp (.num 8) divTok (.num 2)))).out = ["4.0"] ∧
    (visit [] (.print (.binOp (.num 6) divTok (.num 3)))).out = ["2.0"] ∧
    (visit [] (.print (.binOp (.num 7) divTok (.num 2)))).out = ["3.5"] ∧
    (visit [] (.print (.binOp (.num 1) divTok (.num 2)))).out = ["0.5"] ∧
    parseProgram "print 7 / 2;" = .error .unexpectedToken := by
  refine ⟨by decide, by decide, by decide, by decide, rfl⟩

theorem visit_assignFree_env (n : AST) :
    ∀ env : Env, assignFree n = true → (visit env n).env = env := by
  induction n with
  | num v => intro env _; rfl
  | var name =>
    intro env _
    cases h : envGet env name <;> simp [visit, h]
  | binOp l op r ihl ihr =>
    intro env h
    simp only [assignFree, Bool.and_eq_true] at h
    rcases hv : visit env l with ⟨res1, envA, out1⟩
    have h1 : envA = env := by
      have := ihl env h.1
      rw [hv] at this
      exact this
    rw [h1] at hv
    cases res1 with
    | error e => simp [visit, hv]
    | ok vl =>
      rcases hv2 : visit env r with ⟨res2, envB, out2⟩
      have h2 : envB = env := by
        have := ihr env h.2
        rw [hv2] at this
        exact this
      rw [h2] at hv2
      cases res2 <;> simp [visit, hv, hv2]
  | assign name value ih =>
    intro env h
    simp [assignFree] at h
  | print e ih =>
    intro env h
    simp only [assignFree] at h
    rcases hv : visit env e with ⟨res1, envA, out1⟩
    have h1 : envA = env := by
      have := ih env h
      rw [hv] at this
      exact this
    rw [h1] at hv
    cases res1 <;> simp [visit, hv]

/-- C9: evaluating an `Assign` is the only operation that changes the
environment.  Visiting any assign-free node — every `Num`, `Var`,
`BinOp` or `Print` the parser can build — returns the environment
untouched, whether it succeeds or raises; visiting `Assign(name, e)`
returns the input environment with exactly the binding of `name`
overwritten by the value of `e`; and the new binding is readable back. -/
theorem claim_C9_assign_sole_mutation :
    (∀ (env : Env) (n : AST), assignFree n = true → (visit env n).env = env) ∧
    (∀ (env : Env) (name : String) (e : AST) (v : Value),
      assignFree e = true → (visit env e).res = .ok v →
      visit env (.assign name e) = ⟨.ok .noneV, envSet env name v, (visit env e).out⟩) ∧
    (∀ (env : Env) (name : String) (v : Value),
      envGet (envSet env name v) name = some v) := by
  refine ⟨fun env n h => visit_assignFree_env n env h, ?_, ?_⟩
  · intro env name e v hf hres
    rcases hv : visit env e with ⟨res1, envA, out1⟩
    have h1 : envA = env := by
      have := visit_assignFree_env e env hf
      rw [hv] at this
      exact this
    rw [h1] at hv
    rw [hv] at hres
    have hres' : res1 = Except.ok v := hres
    subst hres'
    simp [visit, hv]
  · intro env name v
    induction env with
    | nil => simp [envSet, envGet]
    | cons kv rest ih =>
      by_cases h : kv.1 = name
      · simp [envSet, envGet, h]
      · simp [envSet, envGet, h, ih]

/-- C9 witness: visiting `2 + x` leaves a sample environment unchanged,
and assigning `y` in it adds exactly that binding. -/
theorem claim_C9_witness :
    (visit [("x", .intV 1)] (.binOp (.num 2) plusTok (.var "x"))).env = [("x", .intV 1)] ∧
    visit [("x", .intV 1)] (.assign "y" (.num 3)) =
      ⟨.ok .noneV, envSet [("x", .intV 1)] "y" (.intV 3),
        (visit [("x", .intV 1)] (.num 3)).out⟩ ∧
    envGet (envSet [("x", .intV 1)] "y" (.intV 3)) "y" = some (.intV 3) :=
  ⟨claim_C9_assign_sole_mutation.1 [("x", .intV 1)] (.binOp (.num 2) plusTok (.var "x")) rfl,
   claim_C9_assign_sole_mutation.2.1 [("x", .intV 1)] "y" (.num 3) (.intV 3) rfl rfl,
   claim_C9_assign_sole_mutation.2.2 [("x", .intV 1)] "y" (.intV 3)⟩

theorem takeWhile_pos_of_head (p : Char → Bool) (xs : List Char) (c : Char)
    (hx : xs.head? = some c) (hpc : p c = true) : 0 < (xs.takeWhile p).length := by
  cases xs with
  | nil => simp at hx
  | cons a rest =>
    simp at hx
    subst hx
    simp [List.takeWhile_cons, hpc]

theorem skip_whitespace_text (l : Lexer) : (Lexer.skip_whitespace l).text = l.text := rfl

theorem le_skip_whitespace_pos (l : Lexer) : l.pos ≤ (Lexer.skip_whitespace l).pos :=
  Nat.le_add_right _ _

theorem drop_skip_whitespace (l : Lexer) :
    l.text.drop (Lexer.skip_whitespace l).pos
      = (l.text.drop l.pos).dropWhile Char.isWhitespace := by
  show l.text.drop (l.pos + ((l.text.drop l.pos).takeWhile Char.isWhitespace).length) = _
  rw [← List.drop_drop, drop_length_takeWhile]

theorem curr_skip_whitespace_not_ws (l : Lexer) (c : Char)
    (hc : Lexer.curr (Lexer.skip_whitespace l) = some c) : c.isWhitespace = false := by
  have hc' : ((l.text.drop l.pos).dropWhile Char.isWhitespace).head? = some c := by
    rw [← drop_skip_whitespace l]
    exact hc
  exact head?_dropWhile_not _ _ hc'

theorem pos_lt_of_curr_some (l : Lexer) (c : Char) (hc : Lexer.curr l = some c) :
    l.pos < l.text.length := by
  by_contra hle
  push_neg at hle
  rw [Lexer.curr, List.drop_eq_nil_of_le hle] at hc
  simp at hc

theorem mem_of_curr_some (l : Lexer) (c : Char) (hc : Lexer.curr l = some c) :
    c ∈ l.text :=
  List.drop_subset _ _ (head?_mem hc)

theorem get_next_token_at_end (l : Lexer) (h : l.text.length ≤ l.pos) :
    Lexer.get_next_token l = .ok (eofTok, l) := by
  have hdrop : l.text.drop l.pos = [] := List.drop_eq_nil_of_le h
  have hskip : Lexer.skip_whitespace l = l := by
    cases l with
    | mk text pos =>
      simp only [Lexer.skip_whitespace] at *
      simp [hdrop]
  have hcur : Lexer.curr l = Option.none := by
    rw [Lexer.curr, hdrop]
    rfl
  simp only [Lexer.get_next_token, hskip, hcur]

theorem get_next_token_eof_of_none (l : Lexer)
    (hc : Lexer.curr (Lexer.skip_whitespace l) = Option.none) :
    Lexer.get_next_token l = .ok (eofTok, Lexer.skip_whitespace l) := by
  simp only [Lexer.get_next_token, hc]

theorem gntChar_plus (l : Lexer) :
    Lexer.gntChar '+' l = .ok (⟨"PLUS", .str "+"⟩, l.advance) := rfl

theorem gntChar_minus (l : Lexer) :
    Lexer.gntChar '-' l = .ok (⟨"MINUS", .str "-"⟩, l.advance) := rfl

theorem gntChar_mul (l : Lexer) :
    Lexer.gntChar '*' l = .ok (⟨"MUL", .str "*"⟩, l.advance) := rfl

theorem gntChar_div (l : Lexer) :
    Lexer.gntChar '/' l = .ok (⟨"DIV", .str "/"⟩, l.advance) := rfl

theorem gntChar_eq (l : Lexer) :
    Lexer.gntChar '=' l = .ok (⟨"EQ", .str "="⟩, l.advance) := rfl

theorem gntChar_semicolon (l : Lexer) :
    Lexer.gntChar ';' l = .ok (⟨"SEMICOLON", .str ";"⟩, l.advance) := rfl

theorem gntChar_lparen (l : Lexer) :
    Lexer.gntChar '(' l = .ok (⟨"LPAREN", .str "("⟩, l.advance) := rfl

theorem gntChar_rparen (l : Lexer) :
    Lexer.gntChar ')' l = .ok (⟨"RPAREN", .str ")"⟩, l.advance) := rfl

theorem get_next_token_progress (l : Lexer) (c : Char)
    (hc : Lexer.curr (Lexer.skip_whitespace l) = some c)
    (hrec : recognizedChar c = true) :
    ∃ t l', Lexer.get_next_token l = .ok (t, l') ∧ t.type ≠ "EOF" ∧
      l'.text = l.text ∧ (Lexer.skip_whitespace l).pos < l'.pos := by
  have hws : c.isWhitespace = false := curr_skip_whitespace_not_ws l c hc
  have hc' : (l.text.drop (Lexer.skip_whitespace l).pos).head? = some c := hc
  by_cases ha : c.isAlpha = true
  · refine ⟨(Lexer.variableToken (Lexer.skip_whitespace l)).1,
      (Lexer.variableToken (Lexer.skip_whitespace l)).2, ?_, ?_, rfl, ?_⟩
    · simp only [Lexer.get_next_token, hc]
      simp [Lexer.gntChar, ha]
    · simp [Lexer.variableToken]
    · have hpos := takeWhile_pos_of_head Char.isAlphanum
        (l.text.drop (Lexer.skip_whitespace l).pos) c hc' (by simp [Char.isAlphanum, ha])
      simp only [Lexer.variableToken, skip_whitespace_text]
      omega
  rw [Bool.not_eq_true] at ha
  by_cases hd : c.isDigit = true
  · refine ⟨(Lexer.numberToken (Lexer.skip_whitespace l)).1,
      (Lexer.numberToken (Lexer.skip_whitespace l)).2, ?_, ?_, rfl, ?_⟩
    · simp only [Lexer.get_next_token, hc]
      simp [Lexer.gntChar, ha, hd]
    · simp [Lexer.numberToken]
    · have hpos := takeWhile_pos_of_head Char.isDigit
        (l.text.drop (Lexer.skip_whitespace l).pos) c hc' hd
      simp only [Lexer.numberToken, skip_whitespace_text]
      omega
  rw [Bool.not_eq_true] at hd
  by_cases hp1 : c = '+'
  · subst hp1
    refine ⟨⟨"PLUS", .str "+"⟩, (Lexer.skip_whitespace l).advance, ?_, by decide, rfl,
      by simp only [Lexer.advance]; omega⟩
    simp only [Lexer.get_next_token, hc]
    exact gntChar_plus _
  by_cases hp2 : c = '-'
  · subst hp2
    refine ⟨⟨"MINUS", .str "-"⟩, (Lexer.skip_whitespace l).advance, ?_, by decide, rfl,
      by simp only [Lexer.advance]; omega⟩
    simp only [Lexer.get_next_token, hc]
    exact gntChar_minus _
  by_cases hp3 : c = '*'
  · subst hp3
    refine ⟨⟨"MUL", .str "*"⟩, (Lexer.skip_whitespace l).advance, ?_, by decide, rfl,
      by simp only [Lexer.advance]; omega⟩
    simp only [Lexer.get_next_token, hc]
    exact gntChar_mul _
  by_cases hp4 : c = '/'
  · subst hp4
    refine ⟨⟨"DIV", .str "/"⟩, (Lexer.skip_whitespace l).advance, ?_, by decide, rfl,
      by simp only [Lexer.advance]; omega⟩
    simp only [Lexer.get_next_token, hc]
    exact gntChar_div _
  by_cases hp5 : c = '='
  · subst hp5
    refine ⟨⟨"EQ", .str "="⟩, (Lexer.skip_whitespace l).advance, ?_, by decide, rfl,
      by simp only [Lexer.advance]; omega⟩
    simp only [Lexer.get_next_token, hc]
    exact gntChar_eq _
  by_cases hp6 : c = ';'
  · subst hp6
    refine ⟨⟨"SEMICOLON", .str ";"⟩, (Lexer.skip_whitespace l).advance, ?_, by decide, rfl,
      by simp only [Lexer.advance]; omega⟩
    simp only [Lexer.get_next_token, hc]
    exact gntChar_semicolon _
  by_cases hp7 : c = '('
  · subst hp7
    refine ⟨⟨"LPAREN", .str "("⟩, (Lexer.skip_whitespace l).advance, ?_, by decide, rfl,
      by simp only [Lexer.advance]; omega⟩
    simp only [Lexer.get_next_token, hc]
    exact gntChar_lparen _
  by_cases hp8 : c = ')'
  · subst hp8
    refine ⟨⟨"RPAREN", .str ")"⟩, (Lexer.skip_whitespace l).advance, ?_, by decide, rfl,
      by simp only [Lexer.advance]; omega⟩
    simp only [Lexer.get_next_token, hc]
    exact gntChar_rparen _
  exfalso
  simp [recognizedChar, hws, ha, hd] at hrec
  tauto

theorem lexAll_total : ∀ (fuel : Nat) (l : Lexer),
    (∀ c ∈ l.text, recognizedChar c = true) →
    l.text.length - l.pos < fuel →
    ∃ ts, lexAll fuel l = .ok (ts ++ [eofTok]) ∧ ∀ t ∈ ts, t.type ≠ "EOF" := by
  intro fuel
  induction fuel with
  | zero => intro l _ hm; exact absurd hm (by omega)
  | succ fuel ih =>
    intro l hrec hm
    cases hcur : Lexer.curr (Lexer.skip_whitespace l) with
    | none =>
      refine ⟨[], ?_, by simp⟩
      simp [lexAll, get_next_token_eof_of_none l hcur, eofTok]
    | some c =>
      have hmem : c ∈ l.text := mem_of_curr_some (Lexer.skip_whitespace l) c hcur
      obtain ⟨t, l', hg, htne, htext, hpos⟩ :=
        get_next_token_progress l c hcur (hrec c hmem)
      have hlt : (Lexer.skip_whitespace l).pos < l.text.length :=
        pos_lt_of_curr_some _ _ hcur
      have hle : l.pos ≤ (Lexer.skip_whitespace l).pos := le_skip_whitespace_pos l
      have hm' : l'.text.length - l'.pos < fuel := by
        rw [htext]
        omega
      have hrec' : ∀ c' ∈ l'.text, recognizedChar c' = true := by
        rw [htext]
        exact hrec
      obtain ⟨ts, hts, hall⟩ := ih l' hrec' hm'
      have hbeq : (t.type == "EOF") = false := beq_eq_false_iff_ne.mpr htne
      refine ⟨t :: ts, ?_, ?_⟩
      · simp [lexAll, hg, hbeq, hts]
      · intro t' ht'
        rcases List.mem_cons.mp ht' with rfl | hmem'
        · exact htne
        · exact hall t' hmem'

/-- C2 counterexample: the claim covers the empty string, but on the
empty string the pipeline fails at `Lexer.__init__` — `text[0]` raises
`IndexError` — so no token sequence is produced at all. -/
theorem claim_C2_counterexample : lexString "" = .error .indexError := rfl

/-- C2 amended: for every nonempty source string all of whose characters
the lexer recognises (whitespace, letters, digits, or one of the eight
operator characters), repeated `get_next_token` calls yield a token
sequence terminated by exactly one EOF token; and once the input is
exhausted (cursor at or past the end) every further call returns EOF
again, without erroring and without moving.  For the empty string the
claim fails: the constructor itself raises `IndexError` (see the
counterexample); and an unrecognised character raises
`Invalid character`. -/
theorem claim_C2_lexer_terminates (s : String) (h1 : s.toList ≠ [])
    (h2 : ∀ c ∈ s.toList, recognizedChar c = true) :
    (∃ ts, lexString s = .ok (ts ++ [eofTok]) ∧ ∀ t ∈ ts, t.type ≠ "EOF") ∧
    (∀ l : Lexer, l.text.length ≤ l.pos → Lexer.get_next_token l = .ok (eofTok, l)) := by
  refine ⟨?_, fun l h => get_next_token_at_end l h⟩
  have hinit : Lexer.init s.toList = some ⟨s.toList, 0⟩ := by
    cases hs : s.toList with
    | nil => exact absurd hs h1
    | cons a rest => rfl
  simp only [lexString, hinit]
  exact lexAll_total _ _ h2 (by show s.toList.length - 0 < s.toList.length + 1; omega)

/-- C2 witness: the amended theorem at the line `x = 1;`. -/
theorem claim_C2_witness :
    (∃ ts, lexString "x = 1;" = .ok (ts ++ [eofTok]) ∧ ∀ t ∈ ts, t.type ≠ "EOF") ∧
    (∀ l : Lexer, l.text.length ≤ l.pos → Lexer.get_next_token l = .ok (eofTok, l)) :=
  claim_C2_lexer_terminates "x = 1;" (by decide) (by decide)
